import Mathlib

/-!
# Verification of `packages/grpc-transport/src/grpc-transport.ts`

A shallow embedding of the grpc transport adapter of `protobuf-ts`:
the metadata codec (`rpcMetaToGrpc` / `grpcMetaToRpc`), the error
classifier (`isServiceError`), and the event-driven call orchestrators
(`unary`, `serverStreaming`, `clientStreaming`, `duplex`).

Collaborator types that live outside `src/` are modelled explicitly:

* `Deferred` / `DeferredState` and `RpcOutputStreamController` come from
  the repository's `runtime-rpc` package (not under `src/`); they are
  modelled from the spec (single-assignment cell, §3/§4.1: later
  settlement attempts after the first are no-ops; push stream with a
  one-way `closed` flag, §3/§8: notifications on a closed stream are
  ignored).
* `Metadata` comes from the external channel library `@grpc/grpc-js`;
  it is modelled from the spec's boundary description (§4.2/§6): an
  insertion-ordered header multimap whose `add` appends a value under a
  key and whose `toHttp2Headers` renders a single-valued key as a scalar
  string and a multi-valued key as the list of its values.

JavaScript runtime behaviour that the source relies on (`typeof`,
truthiness, `hasOwnProperty`, object key iteration order) is embedded by
a small `JsValue` universe and association lists with insertion order.
-/

namespace GrpcTransport

/-! ## Generic metadata (`RpcMetadata` from `runtime-rpc`)

`RpcMetadata` is a plain JS object mapping a header name to a string or
an array of strings.  A JS object is embedded as an association list in
key insertion order; `Object.keys` enumerates distinct keys in that
order, so the lists we quantify over carry a `Nodup` hypothesis. -/

/-- A value of the generic metadata mapping: a single string or an array
of strings (`string | string[]`). -/
inductive RpcMetaValue where
  | str (s : String)
  | arr (ss : List String)
  deriving DecidableEq

/-- The generic metadata mapping `RpcMetadata`, a JS object embedded as
an insertion-ordered association list with distinct keys. -/
abbrev RpcMetadata := List (String × RpcMetaValue)

/-! ## Channel-native metadata (`Metadata` from `@grpc/grpc-js`) -/

/-- Modelled from the spec: the channel-native header set (`Metadata` of
`@grpc/grpc-js`, an external collaborator not under `src/`).  Per §4.2
and §6 it is a header multimap; we keep keys in insertion order, each
with its list of values in `add` order. -/
abbrev Metadata := List (String × List String)

/-- Modelled from the spec (§4.2): `Metadata.add(key, value)` appends
`value` under `key`, creating the key at the end of the map when it is
new. -/
def Metadata.add (m : Metadata) (k : String) (v : String) : Metadata :=
  match m with
  | [] => [(k, [v])]
  | (k', vs) :: rest =>
      if k' = k then (k', vs ++ [v]) :: rest
      else (k', vs) :: Metadata.add rest k v

/-- A value of the HTTP/2 header object produced by
`Metadata.toHttp2Headers`: `string | string[] | number | undefined`. -/
inductive H2Value where
  | str (s : String)
  | strs (ss : List String)
  | num (n : Int)
  | undef
  deriving DecidableEq

/-- The HTTP/2 header object: a JS object from header name to
`H2Value`, in key insertion order. -/
abbrev H2Headers := List (String × H2Value)

/-- Modelled from the spec: `Metadata.toHttp2Headers()` of
`@grpc/grpc-js` renders the native header set as an HTTP/2 header
object; a key holding a single value is rendered as that scalar string
and a key holding several values as the list of them, which is what the
spec's round-trip requirement (§4.2, §8) demands of the representable
subset. -/
def Metadata.toHttp2Headers (m : Metadata) : H2Headers :=
  m.map fun kv =>
    (kv.1, match kv.2 with
      | [v] => H2Value.str v
      | vs => H2Value.strs vs)

/-! ## The metadata codec (lines 46–76 of the source) -/

/-- `rpcMetaToGrpc(from, base?)` (source lines 46–59): for each key of
the generic mapping, add a single string once, or each element of an
array in order, into the (optional) base header set. -/
def rpcMetaToGrpc (f : RpcMetadata) (base : Option Metadata) : Metadata :=
  let acc0 := base.getD []
  f.foldl
    (fun acc kv =>
      match kv.2 with
      | RpcMetaValue.str v => acc.add kv.1 v
      | RpcMetaValue.arr vv => vv.foldl (fun acc v => acc.add kv.1 v) acc)
    acc0

/-- `grpcMetaToRpc(from)` (source lines 62–76): flatten
`from.toHttp2Headers()` into a generic mapping, skipping `undefined`
values and coercing numbers to their decimal string form. -/
def grpcMetaToRpc (f : Metadata) : RpcMetadata :=
  let h2 := f.toHttp2Headers
  h2.foldl
    (fun meta kv =>
      match kv.2 with
      | H2Value.undef => meta
      | H2Value.num n => meta ++ [(kv.1, RpcMetaValue.str (toString n))]
      | H2Value.str s => meta ++ [(kv.1, RpcMetaValue.str s)]
      | H2Value.strs ss => meta ++ [(kv.1, RpcMetaValue.arr ss)])
    []

/-- The list of strings a generic metadata value denotes. -/
def RpcMetaValue.values : RpcMetaValue → List String
  | RpcMetaValue.str s => [s]
  | RpcMetaValue.arr ss => ss

/-- A generic metadata value in the round-trippable subset: a single
string, or a collection of at least two strings.  (A one-element
collection encodes to the same header set as the corresponding single
string, so it cannot round-trip.) -/
def RpcMetaValue.roundTrippable : RpcMetaValue → Prop
  | RpcMetaValue.str _ => True
  | RpcMetaValue.arr ss => 2 ≤ ss.length

theorem RpcMetaValue.values_ne_nil {v : RpcMetaValue} (h : v.roundTrippable) :
    v.values ≠ [] := by
  cases v with
  | str s => simp [RpcMetaValue.values]
  | arr ss =>
      simp only [RpcMetaValue.values]
      intro hnil
      simp [RpcMetaValue.roundTrippable, hnil] at h

theorem Metadata.add_of_not_mem (m : Metadata) (k v : String)
    (h : k ∉ m.map Prod.fst) : m.add k v = m ++ [(k, [v])] := by
  induction m with
  | nil => rfl
  | cons kv rest ih =>
      obtain ⟨k', vs⟩ := kv
      simp only [List.map_cons, List.mem_cons] at h
      push_neg at h
      simp [Metadata.add, Ne.symm h.1, ih h.2]

theorem Metadata.add_append (m : Metadata) (k : String) (ws : List String)
    (v : String) (h : k ∉ m.map Prod.fst) :
    (m ++ [(k, ws)]).add k v = m ++ [(k, ws ++ [v])] := by
  induction m with
  | nil => simp [Metadata.add]
  | cons kv rest ih =>
      obtain ⟨k', vs⟩ := kv
      simp only [List.map_cons, List.mem_cons] at h
      push_neg at h
      simp [Metadata.add, Ne.symm h.1, ih h.2]

theorem Metadata.foldl_add_acc (vs : List String) (m : Metadata) (k : String)
    (ws : List String) (h : k ∉ m.map Prod.fst) :
    vs.foldl (fun acc v => acc.add k v) (m ++ [(k, ws)]) = m ++ [(k, ws ++ vs)] := by
  induction vs generalizing ws with
  | nil => simp
  | cons v rest ih =>
      simp only [List.foldl_cons, Metadata.add_append m k ws v h]
      rw [ih (ws ++ [v])]
      simp

theorem Metadata.foldl_add (vs : List String) (m : Metadata) (k : String)
    (hvs : vs ≠ []) (h : k ∉ m.map Prod.fst) :
    vs.foldl (fun acc v => acc.add k v) m = m ++ [(k, vs)] := by
  cases vs with
  | nil => exact absurd rfl hvs
  | cons v rest =>
      simp only [List.foldl_cons, Metadata.add_of_not_mem m k v h]
      rw [Metadata.foldl_add_acc rest m k [v] h]
      simp

/-- `rpcMetaToGrpc` on a mapping with distinct keys, all of whose values
denote a nonempty list of strings, appends each key with its value list,
in order, after the base. -/
theorem rpcMetaToGrpc_eq_map (f : RpcMetadata) (m : Metadata)
    (hnd : (f.map Prod.fst).Nodup)
    (hdisj : ∀ k ∈ f.map Prod.fst, k ∉ m.map Prod.fst)
    (hgood : ∀ kv ∈ f, RpcMetaValue.values kv.2 ≠ []) :
    rpcMetaToGrpc f (some m) = m ++ f.map (fun kv => (kv.1, RpcMetaValue.values kv.2)) := by
  induction f generalizing m with
  | nil => simp [rpcMetaToGrpc]
  | cons kv rest ih =>
      obtain ⟨k, val⟩ := kv
      simp only [List.map_cons, List.nodup_cons] at hnd
      have hk : k ∉ m.map Prod.fst := hdisj k (by simp)
      have hval : RpcMetaValue.values val ≠ [] := hgood (k, val) (by simp)
      have hstep : rpcMetaToGrpc ((k, val) :: rest) (some m)
          = rpcMetaToGrpc rest (some (m ++ [(k, RpcMetaValue.values val)])) := by
        cases val with
        | str v =>
            simp only [rpcMetaToGrpc, Option.getD_some, List.foldl_cons,
              RpcMetaValue.values]
            rw [Metadata.add_of_not_mem m k v hk]
        | arr vv =>
            have hvv : vv ≠ [] := by simpa [RpcMetaValue.values] using hval
            simp only [rpcMetaToGrpc, Option.getD_some, List.foldl_cons,
              RpcMetaValue.values]
            rw [Metadata.foldl_add vv m k hvv hk]
      have hdisj' :
          ∀ k' ∈ rest.map Prod.fst,
            k' ∉ (m ++ [(k, RpcMetaValue.values val)]).map Prod.fst := by
        intro k' hk'
        simp only [List.map_append, List.mem_append, List.map_cons, List.map_nil,
          List.mem_cons, List.not_mem_nil]
        push_neg
        exact ⟨hdisj k' (by simp [hk']), fun hkk => hnd.1 (hkk ▸ hk'), fun h => h.elim⟩
      have ihr := ih (m ++ [(k, RpcMetaValue.values val)]) hnd.2 hdisj'
        (fun kv hkv => hgood kv (List.mem_cons_of_mem _ hkv))
      rw [hstep, ihr]
      simp

/-- One step of the `grpcMetaToRpc` flattening. -/
def h2ValueToRpc (kv : String × H2Value) : Option (String × RpcMetaValue) :=
  match kv.2 with
  | H2Value.undef => none
  | H2Value.num n => some (kv.1, RpcMetaValue.str (toString n))
  | H2Value.str s => some (kv.1, RpcMetaValue.str s)
  | H2Value.strs ss => some (kv.1, RpcMetaValue.arr ss)

theorem grpcMetaToRpc_foldl (h2 : H2Headers) (acc : RpcMetadata) :
    h2.foldl
      (fun meta kv =>
        match kv.2 with
        | H2Value.undef => meta
        | H2Value.num n => meta ++ [(kv.1, RpcMetaValue.str (toString n))]
        | H2Value.str s => meta ++ [(kv.1, RpcMetaValue.str s)]
        | H2Value.strs ss => meta ++ [(kv.1, RpcMetaValue.arr ss)])
      acc
    = acc ++ h2.filterMap h2ValueToRpc := by
  induction h2 generalizing acc with
  | nil => simp
  | cons kv rest ih =>
      obtain ⟨k, val⟩ := kv
      cases val <;> simp [ih, h2ValueToRpc, List.filterMap_cons]

theorem grpcMetaToRpc_eq_filterMap (f : Metadata) :
    grpcMetaToRpc f = f.toHttp2Headers.filterMap h2ValueToRpc := by
  simpa [grpcMetaToRpc] using grpcMetaToRpc_foldl f.toHttp2Headers []

/-- Round trip of a single round-trippable entry. -/
theorem h2ValueToRpc_roundTrip (k : String) (v : RpcMetaValue)
    (hv : v.roundTrippable) :
    h2ValueToRpc (k,
      (match RpcMetaValue.values v with
        | [w] => H2Value.str w
        | vs => H2Value.strs vs)) = some (k, v) := by
  cases v with
  | str s => simp [RpcMetaValue.values, h2ValueToRpc]
  | arr ss =>
      match ss, hv with
      | s₁ :: s₂ :: rest, _ => simp [RpcMetaValue.values, h2ValueToRpc]

theorem toHttp2Headers_filterMap_roundTrip (m : RpcMetadata)
    (hgood : ∀ kv ∈ m, RpcMetaValue.roundTrippable kv.2) :
    List.filterMap h2ValueToRpc
      (Metadata.toHttp2Headers
        (List.map (fun kv => (kv.1, RpcMetaValue.values kv.2)) m)) = m := by
  induction m with
  | nil => rfl
  | cons kv rest ih =>
      obtain ⟨k, v⟩ := kv
      have hv := hgood (k, v) (by simp)
      have ihr := ih fun kv hkv => hgood kv (List.mem_cons_of_mem _ hkv)
      simp only [List.map_cons, Metadata.toHttp2Headers] at ihr ⊢
      rw [List.filterMap_cons, h2ValueToRpc_roundTrip k v hv, ihr]

/-- C4 (counterexample): the round trip is *not* the identity on every
mapping whose values are strings or non-empty collections of strings.
The encoder sends the one-element collection `{k: ["v"]}` and the single
string `{k: "v"}` to the same channel header set, so no decoder can undo
both; concretely, `{k: ["v"]}` comes back as `{k: "v"}`. -/
theorem metadata_roundTrip_counterexample :
    rpcMetaToGrpc [("k", RpcMetaValue.arr ["v"])] none
      = rpcMetaToGrpc [("k", RpcMetaValue.str "v")] none
    ∧ grpcMetaToRpc (rpcMetaToGrpc [("k", RpcMetaValue.arr ["v"])] none)
      ≠ [("k", RpcMetaValue.arr ["v"])] := by
  constructor
  · rfl
  · decide

/-- C4 (amended): for every generic metadata mapping with distinct keys
whose values are strings or collections of **at least two** strings,
converting it to channel format with `rpcMetaToGrpc` and converting the
result back with `grpcMetaToRpc` yields the original mapping. -/
theorem metadata_roundTrip (m : RpcMetadata)
    (hnd : (m.map Prod.fst).Nodup)
    (hgood : ∀ kv ∈ m, RpcMetaValue.roundTrippable kv.2) :
    grpcMetaToRpc (rpcMetaToGrpc m none) = m := by
  have hbase : rpcMetaToGrpc m none = rpcMetaToGrpc m (some []) := rfl
  rw [hbase,
    rpcMetaToGrpc_eq_map m [] hnd (by simp)
      (fun kv hkv => RpcMetaValue.values_ne_nil (hgood kv hkv)),
    grpcMetaToRpc_eq_filterMap]
  simpa using toHttp2Headers_filterMap_roundTrip m hgood

/-- Witness for `metadata_roundTrip` at a concrete two-key mapping. -/
theorem metadata_roundTrip_witness :
    grpcMetaToRpc
        (rpcMetaToGrpc
          [("k", RpcMetaValue.str "v"), ("j", RpcMetaValue.arr ["a", "b"])] none)
      = [("k", RpcMetaValue.str "v"), ("j", RpcMetaValue.arr ["a", "b"])] :=
  metadata_roundTrip
    [("k", RpcMetaValue.str "v"), ("j", RpcMetaValue.arr ["a", "b"])]
    (by decide)
    (by
      intro kv hkv
      simp only [List.mem_cons, List.mem_singleton] at hkv
      rcases hkv with h | h | h
      · subst h; exact trivial
      · subst h; simp [RpcMetaValue.roundTrippable]
      · exact absurd h (List.not_mem_nil _))

/-! ## Errors, statuses and Deferred results -/

/-- Modelled from the spec: the normalized RPC error (`RpcError` of the
repository's `runtime-rpc` package, which is not under `src/`): a
message, an optional status-code name, and metadata.  Per §4.3/§7 an
opaque error carries only its message — no status code, no metadata. -/
structure RpcError where
  message : String
  code : Option String := none
  meta : RpcMetadata := []
  deriving DecidableEq

/-- The final status of a call: code name and detail string.  The code
name is optional because the channel's numeric code table yields nothing
for a number outside the enum. -/
structure RpcStatus where
  code : Option String
  detail : String
  deriving DecidableEq

/-- The channel's numeric status-code table (`status` of
`@grpc/grpc-js`): `GrpcStatus[n]` is the name of code `n`, undefined
(`none`) when `n` is not a member of the enum. -/
def grpcStatusName : Int → Option String
  | 0 => some "OK"
  | 1 => some "CANCELLED"
  | 2 => some "UNKNOWN"
  | 3 => some "INVALID_ARGUMENT"
  | 4 => some "DEADLINE_EXCEEDED"
  | 5 => some "NOT_FOUND"
  | 6 => some "ALREADY_EXISTS"
  | 7 => some "PERMISSION_DENIED"
  | 8 => some "RESOURCE_EXHAUSTED"
  | 9 => some "FAILED_PRECONDITION"
  | 10 => some "ABORTED"
  | 11 => some "OUT_OF_RANGE"
  | 12 => some "UNIMPLEMENTED"
  | 13 => some "INTERNAL"
  | 14 => some "UNAVAILABLE"
  | 15 => some "DATA_LOSS"
  | 16 => some "UNAUTHENTICATED"
  | _ => none

/-- Modelled from the spec (§3, §4.1): the state of a Deferred result
(`Deferred` / `DeferredState` of `runtime-rpc`, not under `src/`) —
pending, resolved with a value, or rejected with an error. -/
inductive DState (α : Type) where
  | pending
  | resolved (value : α)
  | rejected (error : RpcError)
  deriving DecidableEq

/-- `Deferred.state === DeferredState.PENDING`. -/
def DState.isPending : DState α → Bool
  | DState.pending => true
  | _ => false

/-- Modelled from the spec (§3): `Deferred.resolve` settles a pending
Deferred; a later settlement attempt after the first is a no-op. -/
def DState.resolve : DState α → α → DState α
  | DState.pending, v => DState.resolved v
  | d, _ => d

/-- Modelled from the spec (§3): `Deferred.reject`, with the same
idempotence as `resolve`. -/
def DState.reject : DState α → RpcError → DState α
  | DState.pending, e => DState.rejected e
  | d, _ => d

/-- Modelled from the spec (§4.1): `Deferred.resolvePending`, a no-op
when already settled. -/
def DState.resolvePending : DState α → α → DState α
  | DState.pending, v => DState.resolved v
  | d, _ => d

/-- Modelled from the spec (§4.1): `Deferred.rejectPending`, a no-op
when already settled. -/
def DState.rejectPending : DState α → RpcError → DState α
  | DState.pending, e => DState.rejected e
  | d, _ => d

/-! ## Channel-side event payloads -/

/-- The error a channel completion callback delivers (`ServiceError` of
`@grpc/grpc-js`): numeric status code, detail string, trailing header
set, plus the `Error` fields `name` and `message`. -/
structure ServiceError where
  code : Int
  details : String
  metadata : Metadata
  name : String
  message : String
  deriving DecidableEq

/-- The payload of the channel's `status` event (`StatusObject` of
`@grpc/grpc-js`): numeric code, detail string, trailing header set. -/
structure StatusEvent where
  code : Int
  details : String
  metadata : Metadata
  deriving DecidableEq

/-! ## The unary call orchestrator (source lines 92–157)

The orchestrator builds four pending Deferreds and wires three channel
callbacks onto them; each callback is embedded as a state-transition
function on the bundle of the four Deferred states. -/

/-- The four single-resolution futures a unary or client-streaming call
returns: header, message, status and trailer. -/
structure FourFutures (O : Type) where
  header : DState RpcMetadata
  message : DState O
  status : DState RpcStatus
  trailer : DState RpcMetadata
  deriving DecidableEq

/-- The futures as the orchestrator creates them (lines 100–103 resp.
235–238): all pending. -/
def initialFutures : FourFutures O :=
  ⟨DState.pending, DState.pending, DState.pending, DState.pending⟩

/-- The unary completion callback (lines 114–125): resolve the message
Deferred when a value is present; when an error is present, build the
classified error and reject whatever is still pending. -/
def unaryOnCompletion (st : FourFutures O) (err : Option ServiceError)
    (value : Option O) : FourFutures O :=
  let st1 := match value with
    | some v => { st with message := st.message.resolve v }
    | none => st
  match err with
  | some err =>
      let e : RpcError :=
        ⟨err.message, grpcStatusName err.code, grpcMetaToRpc err.metadata⟩
      { header := st1.header.rejectPending e
        message := st1.message.rejectPending e
        status := st1.status.rejectPending e
        trailer := st1.trailer.rejectPending e }
  | none => st1

/-- The unary `metadata` listener (lines 134–136). -/
def unaryOnMetadata (st : FourFutures O) (val : Metadata) : FourFutures O :=
  { st with header := st.header.resolve (grpcMetaToRpc val) }

/-- The unary `status` listener (lines 138–154): a status while the
message Deferred is still pending must be an error status; an `OK` code
there synthesizes a `DATA_LOSS` error and rejects message, status and
trailer.  Otherwise status and trailer resolve together. -/
def unaryOnStatus (st : FourFutures O) (val : StatusEvent) : FourFutures O :=
  if st.message.isPending && val.code == 0 then
    let e : RpcError := ⟨"expected error status", grpcStatusName 15, []⟩
    { st with
        message := st.message.rejectPending e
        status := st.status.rejectPending e
        trailer := st.trailer.rejectPending e }
  else
    { st with
        status := st.status.resolvePending ⟨grpcStatusName val.code, val.details⟩
        trailer := st.trailer.resolvePending (grpcMetaToRpc val.metadata) }

/-- A channel event a unary call can deliver. -/
inductive UnaryEvent (O : Type) where
  | completion (err : Option ServiceError) (value : Option O)
  | metadata (val : Metadata)
  | status (val : StatusEvent)
  deriving DecidableEq

/-- One event delivered to the unary orchestrator's wiring. -/
def unaryStep (st : FourFutures O) : UnaryEvent O → FourFutures O
  | UnaryEvent.completion err value => unaryOnCompletion st err value
  | UnaryEvent.metadata val => unaryOnMetadata st val
  | UnaryEvent.status val => unaryOnStatus st val

/-- The unary futures after a sequence of channel events. -/
def runUnary (evs : List (UnaryEvent O)) : FourFutures O :=
  evs.foldl unaryStep initialFutures

/-! ## The client-streaming call orchestrator (source lines 227–281)

Its completion callback and `metadata` listener repeat the unary wiring
verbatim; its `status` listener (lines 272–278) resolves status and
trailer with no counterpart of the unary `DATA_LOSS` branch. -/

/-- The client-streaming completion callback (lines 245–256), textually
identical to the unary one. -/
def clientStreamingOnCompletion (st : FourFutures O) (err : Option ServiceError)
    (value : Option O) : FourFutures O :=
  let st1 := match value with
    | some v => { st with message := st.message.resolve v }
    | none => st
  match err with
  | some err =>
      let e : RpcError :=
        ⟨err.message, grpcStatusName err.code, grpcMetaToRpc err.metadata⟩
      { header := st1.header.rejectPending e
        message := st1.message.rejectPending e
        status := st1.status.rejectPending e
        trailer := st1.trailer.rejectPending e }
  | none => st1

/-- The client-streaming `metadata` listener (lines 268–270). -/
def clientStreamingOnMetadata (st : FourFutures O) (val : Metadata) :
    FourFutures O :=
  { st with header := st.header.resolve (grpcMetaToRpc val) }

/-- The client-streaming `status` listener (lines 272–278): resolve
status and trailer if pending; there is no check that a message arrived
before an `OK` status. -/
def clientStreamingOnStatus (st : FourFutures O) (val : StatusEvent) :
    FourFutures O :=
  { st with
      status := st.status.resolvePending ⟨grpcStatusName val.code, val.details⟩
      trailer := st.trailer.resolvePending (grpcMetaToRpc val.metadata) }

/-- One event delivered to the client-streaming orchestrator's wiring
(the event alphabet coincides with the unary one). -/
def clientStreamingStep (st : FourFutures O) : UnaryEvent O → FourFutures O
  | UnaryEvent.completion err value => clientStreamingOnCompletion st err value
  | UnaryEvent.metadata val => clientStreamingOnMetadata st val
  | UnaryEvent.status val => clientStreamingOnStatus st val

/-! ## The error classifier (source lines 30–43)

`isServiceError` shape-sniffs an arbitrary JavaScript value, so the
values it can receive are embedded as a small universe with `typeof`,
truthiness and `hasOwnProperty`. -/

/-- A JavaScript value as far as the error classifier inspects one:
primitives, plain objects (own properties in insertion order), and
channel `Metadata` instances — which are objects, but whose own
properties are the class internals, none of the five names the
classifier probes. -/
inductive JsValue where
  | null
  | undefined
  | boolean (b : Bool)
  | number (n : Int)
  | string (s : String)
  | object (fields : List (String × JsValue))
  | metadataObject (m : Metadata)

/-- JavaScript `typeof`; note `typeof null` is `"object"`. -/
def jsTypeof : JsValue → String
  | JsValue.null => "object"
  | JsValue.undefined => "undefined"
  | JsValue.boolean _ => "boolean"
  | JsValue.number _ => "number"
  | JsValue.string _ => "string"
  | JsValue.object _ => "object"
  | JsValue.metadataObject _ => "object"

/-- JavaScript truthiness: `null`, `undefined`, `false`, `0` and `""`
are falsy; every object is truthy. -/
def truthy : JsValue → Bool
  | JsValue.null => false
  | JsValue.undefined => false
  | JsValue.boolean b => b
  | JsValue.number n => n != 0
  | JsValue.string s => s != ""
  | JsValue.object _ => true
  | JsValue.metadataObject _ => true

/-- `arg.hasOwnProperty(p)` for the values the classifier probes. -/
def hasOwnProperty (v : JsValue) (p : String) : Bool :=
  match v with
  | JsValue.object fields => fields.any (fun kv => kv.1 == p)
  | _ => false

/-- Property access `arg[p]`: the first own property named `p`, or
`undefined`. -/
def getProp (v : JsValue) (p : String) : JsValue :=
  match v with
  | JsValue.object fields =>
      match fields.find? (fun kv => kv.1 == p) with
      | some kv => kv.2
      | none => JsValue.undefined
  | _ => JsValue.undefined

/-- `isServiceError(arg)` (lines 30–43): a non-null object owning all of
`code`, `details`, `metadata`, `name`, `message` with `typeof`s number,
string, object, string, string. -/
def isServiceError (arg : JsValue) : Bool :=
  if jsTypeof arg != "object" || !truthy arg then
    false
  else
    let rp := ["code", "details", "metadata", "name", "message"]
    if !(rp.all fun p => hasOwnProperty arg p) then
      false
    else
      jsTypeof (getProp arg "code") == "number"
        && jsTypeof (getProp arg "details") == "string"
        && jsTypeof (getProp arg "metadata") == "object"
        && jsTypeof (getProp arg "name") == "string"
        && jsTypeof (getProp arg "message") == "string"

/-- `err.message` as the listener reads it; a channel `Error` always has
a string message, so the fallback for a non-string field is inert. -/
def jsMessage (v : JsValue) : String :=
  match getProp v "message" with
  | JsValue.string s => s
  | _ => ""

/-- `err.code` of a value that passed `isServiceError` (its `code` field
is then a number; the fallback is inert). -/
def jsCode (v : JsValue) : Int :=
  match getProp v "code" with
  | JsValue.number n => n
  | _ => 0

/-- `err.metadata` of a value that passed `isServiceError`; a service
error produced by the channel carries a `Metadata` instance there. -/
def jsMetadata (v : JsValue) : Metadata :=
  match getProp v "metadata" with
  | JsValue.metadataObject m => m
  | _ => []

/-- The classified error the server-streaming `error` listener builds
(line 191): a recognized service error keeps message, code name and
translated metadata; anything else keeps only its message. -/
def classifyChannelError (err : JsValue) : RpcError :=
  if isServiceError err then
    ⟨jsMessage err, grpcStatusName (jsCode err), grpcMetaToRpc (jsMetadata err)⟩
  else
    ⟨jsMessage err, none, []⟩

/-! ## The Output Stream Controller and the server-streaming
orchestrator (source lines 160–224) -/

/-- Modelled from the spec (§2, §3, §8): the Output Stream Controller
(`RpcOutputStreamController` of `runtime-rpc`, not under `src/`).  It is
open, accumulating the messages delivered so far, or closed — normally
or with an error; closing is one-way and a notification on a closed
stream is ignored. -/
inductive StreamState (O : Type) where
  | opened (messages : List O)
  | completed (messages : List O)
  | errored (messages : List O) (error : RpcError)
  deriving DecidableEq

/-- The controller's `closed` flag. -/
def StreamState.closed : StreamState O → Bool
  | StreamState.opened _ => false
  | _ => true

/-- Modelled from the spec (§8): `notifyMessage`, ignored on a closed
stream. -/
def StreamState.notifyMessage : StreamState O → O → StreamState O
  | StreamState.opened ms, m => StreamState.opened (ms ++ [m])
  | s, _ => s

/-- Modelled from the spec (§8): `notifyComplete`, ignored on a closed
stream. -/
def StreamState.notifyComplete : StreamState O → StreamState O
  | StreamState.opened ms => StreamState.completed ms
  | s => s

/-- Modelled from the spec (§8): `notifyError`, ignored on a closed
stream. -/
def StreamState.notifyError : StreamState O → RpcError → StreamState O
  | StreamState.opened ms, e => StreamState.errored ms e
  | s, _ => s

/-- The state a server-streaming call fans out into: header future,
output stream, status and trailer futures. -/
structure ServerStreamingState (O : Type) where
  header : DState RpcMetadata
  out : StreamState O
  status : DState RpcStatus
  trailer : DState RpcMetadata
  deriving DecidableEq

/-- The server-streaming call as created (lines 168–171): pending
futures and an open, empty stream. -/
def initialServerStreaming : ServerStreamingState O :=
  ⟨DState.pending, StreamState.opened [], DState.pending, DState.pending⟩

/-- The `error` listener (lines 190–198): classify, reject the header,
notify the stream if it is not closed, reject status and trailer. -/
def serverStreamingOnError (st : ServerStreamingState O) (err : JsValue) :
    ServerStreamingState O :=
  let e := classifyChannelError err
  { header := st.header.rejectPending e
    out := if !st.out.closed then st.out.notifyError e else st.out
    status := st.status.rejectPending e
    trailer := st.trailer.rejectPending e }

/-- The `end` listener (lines 200–204): complete the stream if it is not
closed. -/
def serverStreamingOnEnd (st : ServerStreamingState O) : ServerStreamingState O :=
  { st with out := if !st.out.closed then st.out.notifyComplete else st.out }

/-- The `data` listener (lines 206–209): assert the decoded value is a
legitimate output message (the embedding carries decoded messages, so
the assertion's premise holds by typing) and push it; there is no
`closed` guard at this call site — the controller itself ignores the
notification when closed. -/
def serverStreamingOnData (st : ServerStreamingState O) (arg1 : O) :
    ServerStreamingState O :=
  { st with out := st.out.notifyMessage arg1 }

/-- The `metadata` listener (lines 211–213). -/
def serverStreamingOnMetadata (st : ServerStreamingState O) (val : Metadata) :
    ServerStreamingState O :=
  { st with header := st.header.resolve (grpcMetaToRpc val) }

/-- The `status` listener (lines 215–221). -/
def serverStreamingOnStatus (st : ServerStreamingState O) (val : StatusEvent) :
    ServerStreamingState O :=
  { st with
      status := st.status.resolvePending ⟨grpcStatusName val.code, val.details⟩
      trailer := st.trailer.resolvePending (grpcMetaToRpc val.metadata) }

/-- A channel event a server-streaming call can deliver. -/
inductive ServerStreamingEvent (O : Type) where
  | error (err : JsValue)
  | ended
  | data (arg1 : O)
  | metadata (val : Metadata)
  | status (val : StatusEvent)

/-- One event delivered to the server-streaming orchestrator's wiring. -/
def serverStreamingStep (st : ServerStreamingState O) :
    ServerStreamingEvent O → ServerStreamingState O
  | ServerStreamingEvent.error err => serverStreamingOnError st err
  | ServerStreamingEvent.ended => serverStreamingOnEnd st
  | ServerStreamingEvent.data arg1 => serverStreamingOnData st arg1
  | ServerStreamingEvent.metadata val => serverStreamingOnMetadata st val
  | ServerStreamingEvent.status val => serverStreamingOnStatus st val

/-- The server-streaming state after a sequence of channel events. -/
def runServerStreaming (evs : List (ServerStreamingEvent O)) :
    ServerStreamingState O :=
  evs.foldl serverStreamingStep initialServerStreaming

/-! ## Cancellation wiring and the duplex shape -/

/-- Modelled from the spec (§4.4, §5) and the standard `EventTarget`
contract: the state of the optional abort signal relative to the moment
the orchestrator registers its `abort` listener (lines 128–132, 184–188
and 262–266, identical in the three implemented shapes).  A listener
observes only events dispatched after registration; the signal's current
aborted state does not fire it. -/
structure AbortSignalModel where
  abortedAtRegistration : Bool
  abortEventsAfterRegistration : Nat
  deriving DecidableEq

/-- How many times the registered listener runs `gCall.cancel()`: once
per abort event dispatched after registration, regardless of the
signal's state when the call was initiated; with no signal, no listener
is registered. -/
def cancelCalls : Option AbortSignalModel → Nat
  | none => 0
  | some s => s.abortEventsAfterRegistration

/-- What a call-initiating procedure did before returning or throwing. -/
structure InitTrace where
  clientConstructed : Bool
  callOpened : Bool
  deriving DecidableEq

/-- `duplex` (lines 284–286): `throw new Error("NOT IMPLEMENTED")` is
the whole body — it throws synchronously for every method descriptor and
options value, before constructing a channel client or opening a channel
call.  The descriptor and options are abstract type parameters because
the body never inspects them. -/
def duplex {M Opt : Type} (_method : M) (_options : Opt) :
    Except String Unit × InitTrace :=
  (Except.error "NOT IMPLEMENTED", ⟨false, false⟩)

/-! ## Settlement no-op lemmas -/

theorem DState.resolve_of_settled {α : Type} {d : DState α}
    (hd : d.isPending = false) (v : α) : d.resolve v = d := by
  cases d <;> simp_all [DState.isPending, DState.resolve]

theorem DState.reject_of_settled {α : Type} {d : DState α}
    (hd : d.isPending = false) (e : RpcError) : d.reject e = d := by
  cases d <;> simp_all [DState.isPending, DState.reject]

theorem DState.resolvePending_of_settled {α : Type} {d : DState α}
    (hd : d.isPending = false) (v : α) : d.resolvePending v = d := by
  cases d <;> simp_all [DState.isPending, DState.resolvePending]

theorem DState.rejectPending_of_settled {α : Type} {d : DState α}
    (hd : d.isPending = false) (e : RpcError) : d.rejectPending e = d := by
  cases d <;> simp_all [DState.isPending, DState.rejectPending]

theorem DState.resolvePending_of_pending {α : Type} {d : DState α}
    (hd : d.isPending = true) (v : α) : d.resolvePending v = DState.resolved v := by
  cases d <;> simp_all [DState.isPending, DState.resolvePending]

theorem DState.rejectPending_of_pending {α : Type} {d : DState α}
    (hd : d.isPending = true) (e : RpcError) : d.rejectPending e = DState.rejected e := by
  cases d <;> simp_all [DState.isPending, DState.rejectPending]

theorem StreamState.notifyMessage_of_closed {O : Type} {s : StreamState O}
    (hs : s.closed = true) (m : O) : s.notifyMessage m = s := by
  cases s <;> simp_all [StreamState.closed, StreamState.notifyMessage]

theorem StreamState.notifyComplete_of_closed {O : Type} {s : StreamState O}
    (hs : s.closed = true) : s.notifyComplete = s := by
  cases s <;> simp_all [StreamState.closed, StreamState.notifyComplete]

theorem StreamState.notifyError_of_closed {O : Type} {s : StreamState O}
    (hs : s.closed = true) (e : RpcError) : s.notifyError e = s := by
  cases s <;> simp_all [StreamState.closed, StreamState.notifyError]

/-! ## C1: unary status handling -/

/-- C1: when the channel's status event arrives while the message
Deferred is still pending (status and trailer being the as-yet-unsettled
futures the event settles) and the code is `OK`, then message, status
and trailer all reject with the `DATA_LOSS`-class error while the header
is left as it is (so it may already hold a resolution from a `metadata`
event); otherwise the status Deferred resolves with the code name and
detail string and the trailer resolves with the translated metadata. -/
theorem unary_status_event (O : Type) (st : FourFutures O) (val : StatusEvent)
    (hst : st.status.isPending = true) (htr : st.trailer.isPending = true) :
    (st.message.isPending = true → val.code = 0 →
      (unaryOnStatus st val).message
          = DState.rejected ⟨"expected error status", some "DATA_LOSS", []⟩
        ∧ (unaryOnStatus st val).status
          = DState.rejected ⟨"expected error status", some "DATA_LOSS", []⟩
        ∧ (unaryOnStatus st val).trailer
          = DState.rejected ⟨"expected error status", some "DATA_LOSS", []⟩
        ∧ (unaryOnStatus st val).header = st.header)
    ∧ (¬(st.message.isPending = true ∧ val.code = 0) →
      (unaryOnStatus st val).status
          = DState.resolved ⟨grpcStatusName val.code, val.details⟩
        ∧ (unaryOnStatus st val).trailer
          = DState.resolved (grpcMetaToRpc val.metadata)
        ∧ (unaryOnStatus st val).message = st.message
        ∧ (unaryOnStatus st val).header = st.header) := by
  constructor
  · intro hm hc
    have hcond : (st.message.isPending && val.code == 0) = true := by
      simp [hm, hc]
    simp [unaryOnStatus, hcond, grpcStatusName,
      DState.rejectPending_of_pending hm, DState.rejectPending_of_pending hst,
      DState.rejectPending_of_pending htr]
  · intro hnc
    have hcond : (st.message.isPending && val.code == 0) = false := by
      by_cases hm : st.message.isPending = true
      · have hc : val.code ≠ 0 := fun h0 => hnc ⟨hm, h0⟩
        simp [hc]
      · simp only [Bool.not_eq_true] at hm
        simp [hm]
    simp [unaryOnStatus, hcond,
      DState.resolvePending_of_pending hst, DState.resolvePending_of_pending htr]

/-- Witness for `unary_status_event`: from the freshly-created futures,
an `OK` status with no prior message rejects the message Deferred with
the `DATA_LOSS`-class error. -/
theorem unary_status_event_witness :
    (unaryOnStatus (initialFutures (O := Nat)) ⟨0, "", []⟩).message
      = DState.rejected ⟨"expected error status", some "DATA_LOSS", []⟩ :=
  ((unary_status_event Nat (initialFutures (O := Nat)) ⟨0, "", []⟩ rfl rfl).1
    rfl rfl).1

/-! ## C2: client-streaming status handling -/

/-- C2 (counterexample): in a client-streaming call, a success status
with no prior payload message is *not* turned into a `DATA_LOSS`
rejection: from the freshly-created futures, a `status{code: OK}` event
resolves the status Deferred with `OK` and the trailer with the
translated metadata, and leaves the message Deferred pending — nothing
rejects. -/
theorem clientStreaming_status_ok_counterexample :
    (clientStreamingOnStatus (initialFutures (O := Nat)) ⟨0, "", []⟩).status
        = DState.resolved ⟨some "OK", ""⟩
      ∧ (clientStreamingOnStatus (initialFutures (O := Nat)) ⟨0, "", []⟩).message
        = DState.pending
      ∧ (clientStreamingOnStatus (initialFutures (O := Nat)) ⟨0, "", []⟩).trailer
        = DState.resolved []
      ∧ (clientStreamingOnStatus (initialFutures (O := Nat)) ⟨0, "", []⟩).header
        = DState.pending := by
  refine ⟨rfl, rfl, rfl, rfl⟩

/-- C2 (amended): the client-streaming `status` listener resolves the
pending status and trailer Deferreds with the reported code and
translated metadata unconditionally — also for a success status with no
prior payload message, which is treated as a valid success; no
`DATA_LOSS`-class error is synthesized (that protocol-violation check
exists only in the unary shape). -/
theorem clientStreaming_status_event (O : Type) (st : FourFutures O)
    (val : StatusEvent) (hst : st.status.isPending = true)
    (htr : st.trailer.isPending = true) :
    (clientStreamingOnStatus st val).status
        = DState.resolved ⟨grpcStatusName val.code, val.details⟩
      ∧ (clientStreamingOnStatus st val).trailer
        = DState.resolved (grpcMetaToRpc val.metadata)
      ∧ (clientStreamingOnStatus st val).message = st.message
      ∧ (clientStreamingOnStatus st val).header = st.header := by
  simp [clientStreamingOnStatus,
    DState.resolvePending_of_pending hst, DState.resolvePending_of_pending htr]

/-- Witness for `clientStreaming_status_event` at an `OK` status with
the message Deferred still pending. -/
theorem clientStreaming_status_event_witness :
    (clientStreamingOnStatus (initialFutures (O := Nat)) ⟨0, "ok", []⟩).status
      = DState.resolved ⟨some "OK", "ok"⟩ :=
  (clientStreaming_status_event Nat (initialFutures (O := Nat)) ⟨0, "ok", []⟩
    rfl rfl).1

/-! ## C3: single settlement -/

theorem DState.resolve_of_pending {α : Type} {d : DState α}
    (hd : d.isPending = true) (v : α) : d.resolve v = DState.resolved v := by
  cases d <;> simp_all [DState.isPending, DState.resolve]

theorem unaryStep_frame {O : Type} (st : FourFutures O) (ev : UnaryEvent O) :
    (st.header.isPending = false → (unaryStep st ev).header = st.header)
  ∧ (st.message.isPending = false → (unaryStep st ev).message = st.message)
  ∧ (st.status.isPending = false → (unaryStep st ev).status = st.status)
  ∧ (st.trailer.isPending = false → (unaryStep st ev).trailer = st.trailer) := by
  cases ev with
  | completion err value =>
      refine ⟨fun hh => ?_, fun hm => ?_, fun hs => ?_, fun ht => ?_⟩
      · cases err <;> cases value <;>
          simp [unaryStep, unaryOnCompletion, DState.rejectPending_of_settled hh]
      · cases err <;> cases value <;>
          simp [unaryStep, unaryOnCompletion, DState.resolve_of_settled hm,
            DState.rejectPending_of_settled hm]
      · cases err <;> cases value <;>
          simp [unaryStep, unaryOnCompletion, DState.rejectPending_of_settled hs]
      · cases err <;> cases value <;>
          simp [unaryStep, unaryOnCompletion, DState.rejectPending_of_settled ht]
  | metadata val =>
      refine ⟨fun hh => ?_, fun _ => rfl, fun _ => rfl, fun _ => rfl⟩
      simp [unaryStep, unaryOnMetadata, DState.resolve_of_settled hh]
  | status val =>
      refine ⟨fun hh => ?_, fun hm => ?_, fun hs => ?_, fun ht => ?_⟩
      · simp only [unaryStep, unaryOnStatus]
        split <;> rfl
      · simp [unaryStep, unaryOnStatus, hm]
      · simp only [unaryStep, unaryOnStatus]
        split
        · simp [DState.rejectPending_of_settled hs]
        · simp [DState.resolvePending_of_settled hs]
      · simp only [unaryStep, unaryOnStatus]
        split
        · simp [DState.rejectPending_of_settled ht]
        · simp [DState.resolvePending_of_settled ht]

theorem clientStreamingStep_frame {O : Type} (st : FourFutures O)
    (ev : UnaryEvent O) :
    (st.header.isPending = false → (clientStreamingStep st ev).header = st.header)
  ∧ (st.message.isPending = false → (clientStreamingStep st ev).message = st.message)
  ∧ (st.status.isPending = false → (clientStreamingStep st ev).status = st.status)
  ∧ (st.trailer.isPending = false → (clientStreamingStep st ev).trailer = st.trailer) := by
  cases ev with
  | completion err value =>
      refine ⟨fun hh => ?_, fun hm => ?_, fun hs => ?_, fun ht => ?_⟩
      · cases err <;> cases value <;>
          simp [clientStreamingStep, clientStreamingOnCompletion,
            DState.rejectPending_of_settled hh]
      · cases err <;> cases value <;>
          simp [clientStreamingStep, clientStreamingOnCompletion,
            DState.resolve_of_settled hm, DState.rejectPending_of_settled hm]
      · cases err <;> cases value <;>
          simp [clientStreamingStep, clientStreamingOnCompletion,
            DState.rejectPending_of_settled hs]
      · cases err <;> cases value <;>
          simp [clientStreamingStep, clientStreamingOnCompletion,
            DState.rejectPending_of_settled ht]
  | metadata val =>
      refine ⟨fun hh => ?_, fun _ => rfl, fun _ => rfl, fun _ => rfl⟩
      simp [clientStreamingStep, clientStreamingOnMetadata,
        DState.resolve_of_settled hh]
  | status val =>
      refine ⟨fun _ => rfl, fun _ => rfl, fun hs => ?_, fun ht => ?_⟩
      · simp [clientStreamingStep, clientStreamingOnStatus,
          DState.resolvePending_of_settled hs]
      · simp [clientStreamingStep, clientStreamingOnStatus,
          DState.resolvePending_of_settled ht]

theorem serverStreamingStep_frame {O : Type} (st : ServerStreamingState O)
    (ev : ServerStreamingEvent O) :
    (st.header.isPending = false → (serverStreamingStep st ev).header = st.header)
  ∧ (st.out.closed = true → (serverStreamingStep st ev).out = st.out)
  ∧ (st.status.isPending = false → (serverStreamingStep st ev).status = st.status)
  ∧ (st.trailer.isPending = false → (serverStreamingStep st ev).trailer = st.trailer) := by
  cases ev with
  | error err =>
      refine ⟨fun hh => ?_, fun hc => ?_, fun hs => ?_, fun ht => ?_⟩
      · simp [serverStreamingStep, serverStreamingOnError,
          DState.rejectPending_of_settled hh]
      · simp [serverStreamingStep, serverStreamingOnError, hc]
      · simp [serverStreamingStep, serverStreamingOnError,
          DState.rejectPending_of_settled hs]
      · simp [serverStreamingStep, serverStreamingOnError,
          DState.rejectPending_of_settled ht]
  | ended =>
      refine ⟨fun _ => rfl, fun hc => ?_, fun _ => rfl, fun _ => rfl⟩
      simp [serverStreamingStep, serverStreamingOnEnd, hc]
  | data arg1 =>
      refine ⟨fun _ => rfl, fun hc => ?_, fun _ => rfl, fun _ => rfl⟩
      simp [serverStreamingStep, serverStreamingOnData,
        StreamState.notifyMessage_of_closed hc]
  | metadata val =>
      refine ⟨fun hh => ?_, fun _ => rfl, fun _ => rfl, fun _ => rfl⟩
      simp [serverStreamingStep, serverStreamingOnMetadata,
        DState.resolve_of_settled hh]
  | status val =>
      refine ⟨fun _ => rfl, fun _ => rfl, fun hs => ?_, fun ht => ?_⟩
      · simp [serverStreamingStep, serverStreamingOnStatus,
          DState.resolvePending_of_settled hs]
      · simp [serverStreamingStep, serverStreamingOnStatus,
          DState.resolvePending_of_settled ht]

/-- C3: in every call shape, a Deferred (or the stream-closed state)
leaves pending at most once: once header, message, status or trailer is
settled — or the stream is closed — delivering any further channel event
(a second `status`, a second `metadata`, a completion, anything) leaves
that component exactly as it was. -/
theorem single_settlement (O : Type) :
    (∀ (st : FourFutures O) (ev : UnaryEvent O),
        (st.header.isPending = false → (unaryStep st ev).header = st.header)
      ∧ (st.message.isPending = false → (unaryStep st ev).message = st.message)
      ∧ (st.status.isPending = false → (unaryStep st ev).status = st.status)
      ∧ (st.trailer.isPending = false → (unaryStep st ev).trailer = st.trailer))
  ∧ (∀ (st : FourFutures O) (ev : UnaryEvent O),
        (st.header.isPending = false → (clientStreamingStep st ev).header = st.header)
      ∧ (st.message.isPending = false → (clientStreamingStep st ev).message = st.message)
      ∧ (st.status.isPending = false → (clientStreamingStep st ev).status = st.status)
      ∧ (st.trailer.isPending = false → (clientStreamingStep st ev).trailer = st.trailer))
  ∧ (∀ (st : ServerStreamingState O) (ev : ServerStreamingEvent O),
        (st.header.isPending = false → (serverStreamingStep st ev).header = st.header)
      ∧ (st.out.closed = true → (serverStreamingStep st ev).out = st.out)
      ∧ (st.status.isPending = false → (serverStreamingStep st ev).status = st.status)
      ∧ (st.trailer.isPending = false → (serverStreamingStep st ev).trailer = st.trailer)) :=
  ⟨fun st ev => unaryStep_frame st ev,
   fun st ev => clientStreamingStep_frame st ev,
   fun st ev => serverStreamingStep_frame st ev⟩

/-- Witness for `single_settlement`: a second `status` event after the
unary futures are fully settled changes nothing. -/
theorem single_settlement_witness :
    (unaryStep
        (⟨DState.resolved [], DState.resolved (3 : Nat),
          DState.resolved ⟨some "OK", "done"⟩, DState.resolved []⟩ : FourFutures Nat)
        (UnaryEvent.status ⟨0, "", []⟩)).status
      = DState.resolved ⟨some "OK", "done"⟩ :=
  ((single_settlement Nat).1
      (⟨DState.resolved [], DState.resolved (3 : Nat),
        DState.resolved ⟨some "OK", "done"⟩, DState.resolved []⟩ : FourFutures Nat)
      (UnaryEvent.status ⟨0, "", []⟩)).2.2.1 rfl

/-! ## C5: a completion error rejects every pending future -/

/-- C5: when the unary completion callback supplies an error (and no
value), every one of the four Deferreds that is still pending at that
moment rejects with the one classified error built from the error's
message, status-code name and translated metadata. -/
theorem unary_completion_error_rejects (O : Type) (st : FourFutures O)
    (err : ServiceError) :
    (st.header.isPending = true →
      (unaryOnCompletion st (some err) none).header
        = DState.rejected
            ⟨err.message, grpcStatusName err.code, grpcMetaToRpc err.metadata⟩)
  ∧ (st.message.isPending = true →
      (unaryOnCompletion st (some err) none).message
        = DState.rejected
            ⟨err.message, grpcStatusName err.code, grpcMetaToRpc err.metadata⟩)
  ∧ (st.status.isPending = true →
      (unaryOnCompletion st (some err) none).status
        = DState.rejected
            ⟨err.message, grpcStatusName err.code, grpcMetaToRpc err.metadata⟩)
  ∧ (st.trailer.isPending = true →
      (unaryOnCompletion st (some err) none).trailer
        = DState.rejected
            ⟨err.message, grpcStatusName err.code, grpcMetaToRpc err.metadata⟩) := by
  refine ⟨fun hh => ?_, fun hm => ?_, fun hs => ?_, fun ht => ?_⟩
  · simp [unaryOnCompletion, DState.rejectPending_of_pending hh]
  · simp [unaryOnCompletion, DState.rejectPending_of_pending hm]
  · simp [unaryOnCompletion, DState.rejectPending_of_pending hs]
  · simp [unaryOnCompletion, DState.rejectPending_of_pending ht]

/-- Witness for `unary_completion_error_rejects`: a channel error with
code 14 rejects the pending header with the classified error. -/
theorem unary_completion_error_rejects_witness :
    (unaryOnCompletion (initialFutures (O := Nat))
        (some ⟨14, "conn refused", [], "Error", "boom"⟩) none).header
      = DState.rejected ⟨"boom", some "UNAVAILABLE", []⟩ :=
  (unary_completion_error_rejects Nat (initialFutures (O := Nat))
      ⟨14, "conn refused", [], "Error", "boom"⟩).1 rfl

/-! ## C6: stream terminal idempotence -/

/-- C6: once the Output Stream Controller of a server-streaming call is
closed, any later `data`, `error` or `end` event from the channel leaves
the stream exactly as it is, and at the controller level
`notifyMessage`, `notifyError` and `notifyComplete` are all no-ops. -/
theorem stream_terminal_idempotence (O : Type) (st : ServerStreamingState O)
    (ev : ServerStreamingEvent O) (hc : st.out.closed = true) :
    (serverStreamingStep st ev).out = st.out
  ∧ (∀ m : O, st.out.notifyMessage m = st.out)
  ∧ (∀ e : RpcError, st.out.notifyError e = st.out)
  ∧ st.out.notifyComplete = st.out :=
  ⟨(serverStreamingStep_frame st ev).2.1 hc,
   fun m => StreamState.notifyMessage_of_closed hc m,
   fun e => StreamState.notifyError_of_closed hc e,
   StreamState.notifyComplete_of_closed hc⟩

/-- Witness for `stream_terminal_idempotence`: a `data` event after the
stream completed with `[1]` leaves it completed with `[1]`. -/
theorem stream_terminal_idempotence_witness :
    (serverStreamingStep
        (⟨DState.pending, StreamState.completed [1], DState.pending,
          DState.pending⟩ : ServerStreamingState Nat)
        (ServerStreamingEvent.data 2)).out
      = StreamState.completed [1] :=
  (stream_terminal_idempotence Nat
      (⟨DState.pending, StreamState.completed [1], DState.pending,
        DState.pending⟩ : ServerStreamingState Nat)
      (ServerStreamingEvent.data 2) rfl).1

/-! ## C7: the duplex shape -/

/-- C7: invoking the duplex shape fails synchronously with the explicit
`"NOT IMPLEMENTED"` error for every method descriptor and options input,
and its initiation trace records that no channel client was constructed
and no channel call was opened. -/
theorem duplex_not_implemented (M Opt : Type) (method : M) (options : Opt) :
    (duplex method options).1 = Except.error "NOT IMPLEMENTED"
  ∧ (duplex method options).2.clientConstructed = false
  ∧ (duplex method options).2.callOpened = false :=
  ⟨rfl, rfl, rfl⟩

/-! ## C8: the error classifier -/

/-- The service-error shape as the spec words it (§4.3): a non-null
object owning all five of `code` (number), `details` (string),
`metadata` (object), `name` (string) and `message` (string) — property
types read off with JavaScript `typeof`.  Stated independently of
`isServiceError` so the two can be compared. -/
def isServiceErrorSpec (v : JsValue) : Prop :=
  v ≠ JsValue.null ∧ jsTypeof v = "object"
  ∧ hasOwnProperty v "code" = true
  ∧ hasOwnProperty v "details" = true
  ∧ hasOwnProperty v "metadata" = true
  ∧ hasOwnProperty v "name" = true
  ∧ hasOwnProperty v "message" = true
  ∧ jsTypeof (getProp v "code") = "number"
  ∧ jsTypeof (getProp v "details") = "string"
  ∧ jsTypeof (getProp v "metadata") = "object"
  ∧ jsTypeof (getProp v "name") = "string"
  ∧ jsTypeof (getProp v "message") = "string"

/-- C8: `isServiceError` holds exactly on the spec's service-error
shape, and every value it does not recognize is normalized into an
error carrying only its message — no status code, no metadata. -/
theorem isServiceError_spec (v : JsValue) :
    (isServiceError v = true ↔ isServiceErrorSpec v)
  ∧ (isServiceError v = false →
      classifyChannelError v = ⟨jsMessage v, none, []⟩) := by
  constructor
  · cases v <;>
      simp [isServiceError, isServiceErrorSpec, jsTypeof, truthy,
        hasOwnProperty, getProp]
    tauto
  · intro h
    simp [classifyChannelError, h]

/-- Witness for `isServiceError_spec`: an object owning only a
`message` is not a service error and normalizes to a message-only
error. -/
theorem isServiceError_spec_witness :
    classifyChannelError (JsValue.object [("message", JsValue.string "boom")])
      = ⟨"boom", none, []⟩ :=
  (isServiceError_spec
      (JsValue.object [("message", JsValue.string "boom")])).2 rfl

/-! ## C9: a completion with both a value and an error -/

/-- C9: when a unary or client-streaming completion callback is invoked
with both a value and an error while the message Deferred is pending,
the message Deferred resolves with the value (its resolution precedes
the rejection attempts, which are then no-ops on it), while header,
status and trailer — whichever of them are pending — reject with the
classified error. -/
theorem completion_value_and_error (O : Type) (st : FourFutures O)
    (err : ServiceError) (v : O) (hm : st.message.isPending = true) :
    ((unaryOnCompletion st (some err) (some v)).message = DState.resolved v)
  ∧ (st.header.isPending = true →
      (unaryOnCompletion st (some err) (some v)).header
        = DState.rejected
            ⟨err.message, grpcStatusName err.code, grpcMetaToRpc err.metadata⟩)
  ∧ (st.status.isPending = true →
      (unaryOnCompletion st (some err) (some v)).status
        = DState.rejected
            ⟨err.message, grpcStatusName err.code, grpcMetaToRpc err.metadata⟩)
  ∧ (st.trailer.isPending = true →
      (unaryOnCompletion st (some err) (some v)).trailer
        = DState.rejected
            ⟨err.message, grpcStatusName err.code, grpcMetaToRpc err.metadata⟩)
  ∧ ((clientStreamingOnCompletion st (some err) (some v)).message
      = DState.resolved v)
  ∧ (st.header.isPending = true →
      (clientStreamingOnCompletion st (some err) (some v)).header
        = DState.rejected
            ⟨err.message, grpcStatusName err.code, grpcMetaToRpc err.metadata⟩)
  ∧ (st.status.isPending = true →
      (clientStreamingOnCompletion st (some err) (some v)).status
        = DState.rejected
            ⟨err.message, grpcStatusName err.code, grpcMetaToRpc err.metadata⟩)
  ∧ (st.trailer.isPending = true →
      (clientStreamingOnCompletion st (some err) (some v)).trailer
        = DState.rejected
            ⟨err.message, grpcStatusName err.code, grpcMetaToRpc err.metadata⟩) := by
  refine ⟨?_, fun hh => ?_, fun hs => ?_, fun ht => ?_,
          ?_, fun hh => ?_, fun hs => ?_, fun ht => ?_⟩
  · simp [unaryOnCompletion, DState.resolve_of_pending hm,
      DState.rejectPending]
  · simp [unaryOnCompletion, DState.rejectPending_of_pending hh]
  · simp [unaryOnCompletion, DState.rejectPending_of_pending hs]
  · simp [unaryOnCompletion, DState.rejectPending_of_pending ht]
  · simp [clientStreamingOnCompletion, DState.resolve_of_pending hm,
      DState.rejectPending]
  · simp [clientStreamingOnCompletion, DState.rejectPending_of_pending hh]
  · simp [clientStreamingOnCompletion, DState.rejectPending_of_pending hs]
  · simp [clientStreamingOnCompletion, DState.rejectPending_of_pending ht]

/-- Witness for `completion_value_and_error`: on the fresh futures, a
completion with value `7` and an error resolves the message with `7`. -/
theorem completion_value_and_error_witness :
    (unaryOnCompletion (initialFutures (O := Nat))
        (some ⟨13, "oops", [], "Error", "broken"⟩) (some 7)).message
      = DState.resolved 7 :=
  (completion_value_and_error Nat (initialFutures (O := Nat))
      ⟨13, "oops", [], "Error", "broken"⟩ 7 rfl).1

/-! ## C10: cancellation is requested only by post-registration abort
events -/

/-- C10: the orchestrator only registers an `abort` listener; the
channel call's `cancel()` runs once per abort event dispatched after
registration.  In particular, a signal already in the aborted state when
the call is initiated — with no later abort event — never triggers a
channel-level cancellation, and without a signal no cancellation can be
requested at all. -/
theorem cancel_only_after_registration :
    (∀ s : AbortSignalModel,
      cancelCalls (some s) = s.abortEventsAfterRegistration)
  ∧ (∀ s : AbortSignalModel, s.abortedAtRegistration = true →
      s.abortEventsAfterRegistration = 0 → cancelCalls (some s) = 0)
  ∧ cancelCalls none = 0 :=
  ⟨fun _ => rfl, fun _ _ h0 => h0 ▸ rfl, rfl⟩

/-- Witness for `cancel_only_after_registration`: an already-aborted
signal with no later abort event yields no cancellation. -/
theorem cancel_only_after_registration_witness :
    cancelCalls (some ⟨true, 0⟩) = 0 :=
  cancel_only_after_registration.2.1 ⟨true, 0⟩ rfl rfl

end GrpcTransport
